import Mathlib

/-!
Verification development for the zthread concurrency-primitive library.

The definitions below are shallow embeddings of the C++ sources:
`SemaphoreImpl` (src/zthread/src/semaphore_impl.h), the queue family
(`BoundedQueue` in src/unnamed/part_005, `BlockingQueue` in
src/zthread/tests/demo.cc, `MonitoredQueue` in
src/zthread/include/zthread/monitored_queue.h), `BiasedReadWriteLock`
(src/zthread/include/zthread/biased_read_write_lock.h), and the Guard
scope policies (src/unnamed/part_004).  Thread handles are modelled by
`Nat` identifiers; monitor interactions and condition-variable waits,
whose outcomes are produced by other threads, are modelled by explicit
oracle parameters.  Blocking is represented by explicit outcomes
(`waits`-style constructors or fuel exhaustion), and C++ exceptions by
`Except`/error constructors.
-/

namespace ZThread

/-- The sticky per-thread Monitor wake states relevant to the semaphore
dispatch switches (`Monitor::STATE`); `other` stands for any state that
falls into the `default` branch of those switches. -/
inductive MonState
  | signaled
  | interrupted
  | timedout
  | other
deriving DecidableEq

/-- Error kinds raised by the embedded operations, mirroring the
exception classes thrown by the sources. -/
inductive SemError
  | invalidOp
  | interruptedErr
  | synchronizationErr
deriving DecidableEq

/-- State of `SemaphoreImpl` (semaphore_impl.h lines 50-69): the count,
the maximum count, the checked flag, the entry count and the waiter
list (thread identifiers, head first). -/
structure SemState where
  count : Int
  maxCount : Int
  checked : Bool
  entryCount : Int
  waiters : List Nat
deriving DecidableEq

/-- Constructor of `SemaphoreImpl` (semaphore_impl.h lines 78-79):
fields are initialised from the arguments and `entry_count_` is 0; the
waiter list starts empty. -/
def semInit (count : Int) (maxCount : Int) (checked : Bool) : SemState :=
  { count := count, maxCount := maxCount, checked := checked,
    entryCount := 0, waiters := [] }

/-- The fast path of `SemaphoreImpl::Acquire` (semaphore_impl.h line
137): when `count_ > 0 && entry_count_ == 0` the count is decremented
and the call returns without blocking; otherwise (`none`) the slow,
blocking branch is taken instead. -/
def semAcquireFast (s : SemState) : Option SemState :=
  if 0 < s.count ∧ s.entryCount = 0 then
    some { s with count := s.count - 1 }
  else none

/-- Iterate the `Acquire` fast path `n` times, failing if any call does
not take the fast path. -/
def semAcquireFastIter : Nat → SemState → Option SemState
  | 0, s => some s
  | n + 1, s => (semAcquireFast s).bind (semAcquireFastIter n)

/-- Events emitted by the notify-donor protocol of
`SemaphoreImpl::Release` (semaphore_impl.h lines 267-299).  `yielded`
stands for the backoff block in lines 294-298: the semaphore's internal
`FastLock` is released via a `Guard<FastLock, UnlockedScope>`,
`ThreadImpl::yield()` runs, and the lock is re-acquired. -/
inductive Ev
  | tryFail (w : Nat)
  | removed (w : Nat)
  | notified (w : Nat) (ok : Bool)
  | monReleased (w : Nat)
  | yielded
deriving DecidableEq

/-- One head-to-tail walk of the waiter list, the inner `for` loop of
`SemaphoreImpl::Release` (semaphore_impl.h lines 269-290).  `tA w`
gives the result of `Monitor::TryAcquire()` on waiter `w`'s monitor
and `nO w` the result of the subsequent `Monitor::notify()`.  Returns
the remaining waiter list, whether a notify returned true (in which
case `Release` returns at once), and the event trace. -/
def walk (tA nO : Nat → Bool) : List Nat → List Nat × Bool × List Ev
  | [] => ([], false, [])
  | w :: rest =>
    if tA w then
      if nO w then
        (rest, true, [Ev.removed w, Ev.notified w true, Ev.monReleased w])
      else
        let r := walk tA nO rest
        (r.1, r.2.1, Ev.removed w :: Ev.notified w false :: Ev.monReleased w :: r.2.2)
    else
      let r := walk tA nO rest
      (w :: r.1, r.2.1, Ev.tryFail w :: r.2.2)

/-- Monitor oracle for the retry rounds of `Release`: the outcomes of
`TryAcquire` and `notify` on each waiter's monitor, per round (the
monitors belong to other threads and may change between rounds). -/
structure MonOracle where
  tryAcq : Nat → Nat → Bool
  notifyOk : Nat → Nat → Bool

/-- The outer backoff-and-retry loop of `SemaphoreImpl::Release`
(semaphore_impl.h lines 267-299), with explicit fuel: `none` means the
loop is still running after `fuel` rounds.  Each round walks the list;
if a notify returned true, or the remaining list is empty, `Release`
returns; otherwise it inverts the semaphore lock, yields, and walks
again. -/
def releaseLoop (ora : MonOracle) : Nat → Nat → List Nat → Option (List Nat × List Ev)
  | 0, _, _ => none
  | fuel + 1, round, ws =>
    let r := walk (ora.tryAcq round) (ora.notifyOk round) ws
    if r.2.1 then some (r.1, r.2.2)
    else if r.1.isEmpty then some (r.1, r.2.2)
    else
      match releaseLoop ora fuel (round + 1) r.1 with
      | none => none
      | some (l, evs) => some (l, r.2.2 ++ Ev.yielded :: evs)

/-- Embedding of `SemaphoreImpl::Release` (semaphore_impl.h lines 256-300): if the
semaphore is checked and the count equals the maximum, an
`InvalidOp_Exception` is thrown before any mutation (the error carries
the untouched state); otherwise the count is incremented and the
notify-donor loop runs.  `none` means the loop is still running. -/
def semRelease (ora : MonOracle) (fuel : Nat) (s : SemState) :
    Option (Except (SemError × SemState) (SemState × List Ev)) :=
  if s.checked = true ∧ s.count = s.maxCount then
    some (Except.error (SemError.invalidOp, s))
  else
    match releaseLoop ora fuel 0 s.waiters with
    | none => none
    | some (l, evs) =>
      some (Except.ok ({ s with count := s.count + 1, waiters := l }, evs))

/-- Embedding of `SemaphoreImpl::TryAcquire` (semaphore_impl.h lines 188-246) for
thread `self`.  `w` is the Monitor state observed when the bounded
`Monitor::wait(timeout)` returns; for `timeout = 0` no wait is
performed and the state stays at its initialisation `TIMEDOUT` (lines
203-215).  After the wait the thread erases the first occurrence of
itself from the waiter list and decrements `entry_count_`; the switch
on the state then decrements the count on SIGNALED, throws on
INTERRUPTED and on the default case, and returns false on TIMEDOUT. -/
def tryAcquireSem (s : SemState) (self : Nat) (timeout : Nat) (w : MonState) :
    Except SemError (Bool × SemState) :=
  if 0 < s.count ∧ s.entryCount = 0 then
    Except.ok (true, { s with count := s.count - 1 })
  else
    let st := if timeout ≠ 0 then w else MonState.timedout
    let ws := (s.waiters ++ [self]).erase self
    match st with
    | MonState.signaled => Except.ok (true, { s with count := s.count - 1, waiters := ws })
    | MonState.interrupted => Except.error SemError.interruptedErr
    | MonState.timedout => Except.ok (false, { s with waiters := ws })
    | MonState.other => Except.error SemError.synchronizationErr

/-- The event trace of a walk segment in which no notify returns true:
skipped candidates leave a `tryFail` event, acquired candidates leave
`removed`, `notified _ false`, `monReleased` in that order. -/
def walkTraceNoWake (tA : Nat → Bool) (ws : List Nat) : List Ev :=
  ws.flatMap fun w =>
    if tA w then [Ev.removed w, Ev.notified w false, Ev.monReleased w]
    else [Ev.tryFail w]

/-- The conditions of the queue family: `not_full_`, `not_empty_` and
`is_empty_` of `BoundedQueue` (part_005 lines 66-73); the unbounded
queues have only `not_empty` (and `_isEmpty` for `MonitoredQueue`). -/
inductive CondId
  | notFull
  | notEmpty
  | isEmpty
deriving DecidableEq

/-- Errors raised by the queue operations. -/
inductive QErr
  | canceledErr
  | timeoutErr
deriving DecidableEq

/-- Outcome of a queue operation evaluated on a state snapshot:
`ok a q sig bc` returns value `a`, leaves state `q`, signals the
conditions in `sig` and broadcasts those in `bc`; `err` is a thrown
exception; `waits c` means the operation enters a wait on condition
`c` (its loop guard held and the snapshot alone cannot resume it). -/
inductive OpRes (σ : Type) (α : Type)
  | ok (a : α) (q : σ) (sig : List CondId) (bc : List CondId)
  | err (e : QErr)
  | waits (c : CondId)
deriving DecidableEq

/-- State of `BoundedQueue` (part_005 lines 58-93): capacity, the
backing `std::deque` (head first), and the cancellation flag. -/
structure BQueue where
  capacity : Nat
  items : List Nat
  canceled : Bool
deriving DecidableEq

/-- Constructor of `BoundedQueue` (part_005 lines 88-93). -/
def bqInit (capacity : Nat) : BQueue :=
  { capacity := capacity, items := [], canceled := false }

/-- Embedding of `BoundedQueue::Add` (part_005 lines 126-136): wait on `not_full_`
while the queue is full and not canceled; throw
`Cancellation_Exception` if canceled; else push the item at the back
and signal `not_empty_`. -/
def bqAdd (q : BQueue) (x : Nat) : OpRes BQueue Unit :=
  if q.items.length = q.capacity ∧ q.canceled = false then OpRes.waits CondId.notFull
  else if q.canceled then OpRes.err QErr.canceledErr
  else OpRes.ok () { q with items := q.items ++ [x] } [CondId.notEmpty] []

/-- Timed `BoundedQueue::Add` (part_005 lines 165-182): identical to
the untimed form except that the wait is `not_full_.Wait(timeout)`
(whose timeout surfaces as a false return instead of blocking
forever); from a snapshot on which the loop guard holds, the
operation enters that timed wait. -/
def bqAddTimed (q : BQueue) (x : Nat) : OpRes BQueue Unit :=
  if q.items.length = q.capacity ∧ q.canceled = false then OpRes.waits CondId.notFull
  else if q.canceled then OpRes.err QErr.canceledErr
  else OpRes.ok () { q with items := q.items ++ [x] } [CondId.notEmpty] []

/-- Embedding of `BoundedQueue::Next` (part_005 lines 200-217): wait on `not_empty_`
while empty and not canceled; if still empty (canceled) throw
`Cancellation_Exception`; else pop the front item, signal `not_full_`,
and broadcast `is_empty_` when the size reaches zero. -/
def bqNext (q : BQueue) : OpRes BQueue Nat :=
  match q.items with
  | [] =>
    if q.canceled = false then OpRes.waits CondId.notEmpty
    else OpRes.err QErr.canceledErr
  | x :: rest =>
    OpRes.ok x { q with items := rest } [CondId.notFull]
      (if rest.length = 0 then [CondId.isEmpty] else [])

/-- Timed `BoundedQueue::Next` (part_005 lines 238-258): identical to
the untimed form except that the wait is timed (its expiry throws
`Timeout_Exception`). -/
def bqNextTimed (q : BQueue) : OpRes BQueue Nat :=
  match q.items with
  | [] =>
    if q.canceled = false then OpRes.waits CondId.notEmpty
    else OpRes.err QErr.canceledErr
  | x :: rest =>
    OpRes.ok x { q with items := rest } [CondId.notFull]
      (if rest.length = 0 then [CondId.isEmpty] else [])

/-- Embedding of `BoundedQueue::Cancel` (part_005 lines 270-275): set the canceled
flag and broadcast `not_empty_`; returns the new state and the list of
conditions broadcast. -/
def bqCancel (q : BQueue) : BQueue × List CondId :=
  ({ q with canceled := true }, [CondId.notEmpty])

/-- State of the unbounded queues `BlockingQueue` (demo.cc) and
`MonitoredQueue` (monitored_queue.h): backing deque and cancellation
flag. -/
structure UQueue where
  items : List Nat
  canceled : Bool
deriving DecidableEq

/-- Embedding of `BlockingQueue::Add` (demo.cc lines 103-111): throw if canceled,
push at the back, signal `not_empty_`; never waits (unbounded). -/
def blqAdd (q : UQueue) (x : Nat) : OpRes UQueue Unit :=
  if q.canceled then OpRes.err QErr.canceledErr
  else OpRes.ok () { q with items := q.items ++ [x] } [CondId.notEmpty] []

/-- Timed `BlockingQueue::Add` (demo.cc lines 116-130): same body, the
timeout only bounding the lock acquisition. -/
def blqAddTimed (q : UQueue) (x : Nat) : OpRes UQueue Unit :=
  if q.canceled then OpRes.err QErr.canceledErr
  else OpRes.ok () { q with items := q.items ++ [x] } [CondId.notEmpty] []

/-- Embedding of `BlockingQueue::Next` (demo.cc lines 149-160): wait on `not_empty_`
while empty and not canceled; if still empty throw
`Cancellation_Exception`; else pop and return the front item. -/
def blqNext (q : UQueue) : OpRes UQueue Nat :=
  match q.items with
  | [] =>
    if q.canceled = false then OpRes.waits CondId.notEmpty
    else OpRes.err QErr.canceledErr
  | x :: rest => OpRes.ok x { q with items := rest } [] []

/-- Timed `BlockingQueue::Next` (demo.cc lines 184-197): the wait is
timed (expiry throws `Timeout_Exception`), otherwise identical. -/
def blqNextTimed (q : UQueue) : OpRes UQueue Nat :=
  match q.items with
  | [] =>
    if q.canceled = false then OpRes.waits CondId.notEmpty
    else OpRes.err QErr.canceledErr
  | x :: rest => OpRes.ok x { q with items := rest } [] []

/-- Embedding of `MonitoredQueue::Add` (monitored_queue.h lines 98-106): throw if
canceled, push at the back, signal `_notEmpty`. -/
def mqAdd (q : UQueue) (x : Nat) : OpRes UQueue Unit :=
  if q.canceled then OpRes.err QErr.canceledErr
  else OpRes.ok () { q with items := q.items ++ [x] } [CondId.notEmpty] []

/-- Timed `MonitoredQueue::Add` (monitored_queue.h lines 133-148):
same body with a timed lock acquisition. -/
def mqAddTimed (q : UQueue) (x : Nat) : OpRes UQueue Unit :=
  if q.canceled then OpRes.err QErr.canceledErr
  else OpRes.ok () { q with items := q.items ++ [x] } [CondId.notEmpty] []

/-- Embedding of `MonitoredQueue::Next` (monitored_queue.h lines 168-183): wait on
`_notEmpty` while empty and not canceled; if still empty throw; else
pop the front and broadcast `_isEmpty` when the size reaches zero. -/
def mqNext (q : UQueue) : OpRes UQueue Nat :=
  match q.items with
  | [] =>
    if q.canceled = false then OpRes.waits CondId.notEmpty
    else OpRes.err QErr.canceledErr
  | x :: rest =>
    OpRes.ok x { q with items := rest } []
      (if rest.length = 0 then [CondId.isEmpty] else [])

/-- Timed `MonitoredQueue::Next` (monitored_queue.h lines 205-222):
the wait is timed, otherwise identical. -/
def mqNextTimed (q : UQueue) : OpRes UQueue Nat :=
  match q.items with
  | [] =>
    if q.canceled = false then OpRes.waits CondId.notEmpty
    else OpRes.err QErr.canceledErr
  | x :: rest =>
    OpRes.ok x { q with items := rest } []
      (if rest.length = 0 then [CondId.isEmpty] else [])

/-- Add a list of values to a `BoundedQueue` one by one via `bqAdd`;
`none` if any call does not complete normally. -/
def bqAddAll : BQueue → List Nat → Option BQueue
  | q, [] => some q
  | q, x :: xs =>
    match bqAdd q x with
    | OpRes.ok _ q2 _ _ => bqAddAll q2 xs
    | _ => none

/-- Perform `n` successive `bqNext` calls, collecting the returned
values in order; `none` if any call does not complete normally. -/
def bqDrain : BQueue → Nat → Option (List Nat × BQueue)
  | q, 0 => some ([], q)
  | q, n + 1 =>
    match bqNext q with
    | OpRes.ok a q2 _ _ => (bqDrain q2 n).map fun p => (a :: p.1, p.2)
    | _ => none

/-- Add a list of values via `blqAdd`. -/
def blqAddAll : UQueue → List Nat → Option UQueue
  | q, [] => some q
  | q, x :: xs =>
    match blqAdd q x with
    | OpRes.ok _ q2 _ _ => blqAddAll q2 xs
    | _ => none

/-- Perform `n` successive `blqNext` calls, collecting results. -/
def blqDrain : UQueue → Nat → Option (List Nat × UQueue)
  | q, 0 => some ([], q)
  | q, n + 1 =>
    match blqNext q with
    | OpRes.ok a q2 _ _ => (blqDrain q2 n).map fun p => (a :: p.1, p.2)
    | _ => none

/-- Add a list of values via `mqAdd`. -/
def mqAddAll : UQueue → List Nat → Option UQueue
  | q, [] => some q
  | q, x :: xs =>
    match mqAdd q x with
    | OpRes.ok _ q2 _ _ => mqAddAll q2 xs
    | _ => none

/-- Perform `n` successive `mqNext` calls, collecting results. -/
def mqDrain : UQueue → Nat → Option (List Nat × UQueue)
  | q, 0 => some ([], q)
  | q, n + 1 =>
    match mqNext q with
    | OpRes.ok a q2 _ _ => (mqDrain q2 n).map fun p => (a :: p.1, p.2)
    | _ => none

/-- Counter state of `BiasedReadWriteLock`
(biased_read_write_lock.h lines 55-59); all four counters are C++
`int`s. -/
structure RWState where
  activeWriters : Int
  activeReaders : Int
  waitingReaders : Int
  waitingWriters : Int
deriving DecidableEq

/-- Constructor of `BiasedReadWriteLock` (lines 110-117): all counters
start at zero. -/
def rwInit : RWState :=
  { activeWriters := 0, activeReaders := 0,
    waitingReaders := 0, waitingWriters := 0 }

/-- Embedding of `BiasedReadWriteLock::AllowReader` (line 249):
`active_writers_ == 0`. -/
def AllowReader (s : RWState) : Bool := s.activeWriters == 0

/-- Embedding of `BiasedReadWriteLock::AllowWriter` (line 251):
`active_writers_ == 0 && active_readers_ == 0`. -/
def AllowWriter (s : RWState) : Bool :=
  s.activeWriters == 0 && s.activeReaders == 0

/-- The two conditions of `BiasedReadWriteLock`: `cond_read_` and
`cond_write_` (lines 52-53). -/
inductive RWCond
  | condRead
  | condWrite
deriving DecidableEq

/-- The wake choice shared by `AfterRead` and `AfterWrite` (lines
172-189 and 230-247): `wake_writer = waiting_writers_ > 0`,
`wake_reader = waiting_readers_ > 0`, then
`if (wake_writer) cond_write_.Signal(); else if (wake_reader)
cond_read_.Signal();`. -/
def releaseSignal (s : RWState) : Option RWCond :=
  if 0 < s.waitingWriters then some RWCond.condWrite
  else if 0 < s.waitingReaders then some RWCond.condRead
  else none

/-- Embedding of `BiasedReadWriteLock::AfterRead` (lines 172-189): decrement
`active_readers_`, then signal a waiting writer in preference to a
waiting reader. -/
def AfterRead (s : RWState) : RWState × Option RWCond :=
  let t := { s with activeReaders := s.activeReaders - 1 }
  (t, releaseSignal t)

/-- Embedding of `BiasedReadWriteLock::AfterWrite` (lines 230-247): decrement
`active_writers_`, then signal a waiting writer in preference to a
waiting reader. -/
def AfterWrite (s : RWState) : RWState × Option RWCond :=
  let t := { s with activeWriters := s.activeWriters - 1 }
  (t, releaseSignal t)

/-- Atomic steps of the `BiasedReadWriteLock` protocol, each taken
under the internal `FastMutex`.  `startRead`/`startWrite` are the
`++waiting_*` at the top of `BeforeRead`/`BeforeWrite`; `grantRead`/
`grantWrite` are the exit of the `while (!Allow*())` loop followed by
`--waiting_*; ++active_*` (admission therefore requires the guard to
hold); `abortRead`/`abortWrite` are the catch blocks that decrement
the waiting count and rethrow; `finishRead`/`finishWrite` are
`AfterRead`/`AfterWrite`, called only by a thread whose admission
completed (so the matching active count is positive). -/
inductive RWStep : RWState → RWState → Prop
  | startRead (s : RWState) :
      RWStep s { s with waitingReaders := s.waitingReaders + 1 }
  | grantRead (s : RWState) (hg : AllowReader s = true)
      (hw : 0 < s.waitingReaders) :
      RWStep s { s with waitingReaders := s.waitingReaders - 1,
                        activeReaders := s.activeReaders + 1 }
  | abortRead (s : RWState) (hw : 0 < s.waitingReaders) :
      RWStep s { s with waitingReaders := s.waitingReaders - 1 }
  | finishRead (s : RWState) (ha : 0 < s.activeReaders) :
      RWStep s (AfterRead s).1
  | startWrite (s : RWState) :
      RWStep s { s with waitingWriters := s.waitingWriters + 1 }
  | grantWrite (s : RWState) (hg : AllowWriter s = true)
      (hw : 0 < s.waitingWriters) :
      RWStep s { s with waitingWriters := s.waitingWriters - 1,
                        activeWriters := s.activeWriters + 1 }
  | abortWrite (s : RWState) (hw : 0 < s.waitingWriters) :
      RWStep s { s with waitingWriters := s.waitingWriters - 1 }
  | finishWrite (s : RWState) (ha : 0 < s.activeWriters) :
      RWStep s (AfterWrite s).1

/-- States of `BiasedReadWriteLock` reachable from the freshly
constructed lock through the protocol steps. -/
inductive RWReach : RWState → Prop
  | init : RWReach rwInit
  | step (s t : RWState) : RWReach s → RWStep s t → RWReach t

/-- A Guard scope policy (part_004's GuardLockingPolicyContract,
lines 36-42), acting on an event trace that records the lock
operations it performs: `create` is `CreateScope(l)`, `createT` is
the timed `CreateScope(l, ms)` returning success, and `destroy` is
`DestroyScope(l)`. -/
structure ScopePolicy where
  create : List Nat → List Nat
  createT : List Nat → Bool × List Nat
  destroy : List Nat → List Nat

/-- Embedding of `CompoundScope::CreateScope(l)` (part_004 lines 95-99):
`Scope1::CreateScope(l); Scope2::CreateScope(l);`. -/
def compoundCreate (S1 S2 : ScopePolicy) (tr : List Nat) : List Nat :=
  S2.create (S1.create tr)

/-- Timed `CompoundScope::CreateScope(l, ms)` (part_004 lines
101-110): if `Scope1` succeeds and `Scope2` fails, `Scope1` is undone
via its `DestroyScope` and false is returned; otherwise true is
returned (note the code returns true even when `Scope1` itself
fails, since control falls through to `return true`). -/
def compoundCreateT (S1 S2 : ScopePolicy) (tr : List Nat) : Bool × List Nat :=
  match S1.createT tr with
  | (true, tr1) =>
    match S2.createT tr1 with
    | (false, tr2) => (false, S1.destroy tr2)
    | (true, tr2) => (true, tr2)
  | (false, tr1) => (true, tr1)

/-- Embedding of `CompoundScope::DestroyScope(l)` (part_004 lines 112-116):
`Scope1::DestroyScope(l); Scope2::DestroyScope(l);` - the same order
as on entry, not the reverse. -/
def compoundDestroy (S1 S2 : ScopePolicy) (tr : List Nat) : List Nat :=
  S2.destroy (S1.destroy tr)

/-- The exit order the specification describes (reverse order:
`Scope2` then `Scope1`), stated from the spec's words for comparison
with `compoundDestroy`. -/
def compoundDestroySpecOrder (S1 S2 : ScopePolicy) (tr : List Nat) : List Nat :=
  S1.destroy (S2.destroy tr)

/-- A concrete scope policy that appends the token `c` on scope
creation (with timed result `cOk`) and the token `d` on destruction;
used to observe the order in which `CompoundScope` invokes its two
sub-policies. -/
def tokenPolicy (c d : Nat) (cOk : Bool) : ScopePolicy :=
  { create := fun tr => tr ++ [c]
    createT := fun tr => (cOk, tr ++ [c])
    destroy := fun tr => tr ++ [d] }

/-- The loop of `BoundedQueue::Empty` (part_005 lines 317-324): while
the size is positive, wait on `is_empty_`; then return true.  `s0` is
the size observed on entry and `sizes` the successive sizes observed
after each `Wait` (produced by other threads); `none` means the loop
is still waiting after the given observations. -/
def bqEmptyLoop : Nat → List Nat → Option Bool
  | 0, _ => some true
  | _ + 1, [] => none
  | _ + 1, s :: rest => bqEmptyLoop s rest

/-- The loop of the timed `BoundedQueue::Empty(timeout)` (part_005
lines 344-351): identical, except each wait is
`is_empty_.Wait(timeout)` whose boolean result the loop discards; the
observations therefore carry that ignored boolean. -/
def bqEmptyLoopTimed : Nat → List (Nat × Bool) → Option Bool
  | 0, _ => some true
  | _ + 1, [] => none
  | _ + 1, (s, _) :: rest => bqEmptyLoopTimed s rest

/-- The loop of `MonitoredQueue::empty` (monitored_queue.h lines
279-286), textually the same loop as `BoundedQueue::Empty`. -/
def mqEmptyLoop : Nat → List Nat → Option Bool
  | 0, _ => some true
  | _ + 1, [] => none
  | _ + 1, s :: rest => mqEmptyLoop s rest

/-- The loop of the timed `MonitoredQueue::empty(timeout)`
(monitored_queue.h lines 306-313), discarding each timed Wait's
boolean result. -/
def mqEmptyLoopTimed : Nat → List (Nat × Bool) → Option Bool
  | 0, _ => some true
  | _ + 1, [] => none
  | _ + 1, (s, _) :: rest => mqEmptyLoopTimed s rest

theorem semAcquireFastIter_run (i : Nat) :
    ∀ s : SemState, s.entryCount = 0 → (i : Int) ≤ s.count →
    semAcquireFastIter i s = some { s with count := s.count - i } := by
  induction i with
  | zero => intro s _ _; simp [semAcquireFastIter]
  | succ n ih =>
    intro s he hc
    have h0 : 0 < s.count := by
      have : ((n : Int) + 1) ≤ s.count := by push_cast at hc; omega
      omega
    rw [semAcquireFastIter, semAcquireFast, if_pos ⟨h0, he⟩]
    rw [Option.some_bind]
    rw [ih { s with count := s.count - 1 } he (by push_cast at hc ⊢; omega)]
    congr 1
    push_cast
    ring_nf

theorem semAcquireFastIter_exhaust (n : Nat) :
    ∀ s : SemState, s.entryCount = 0 → s.count = (n : Int) →
    semAcquireFastIter (n + 1) s = none := by
  induction n with
  | zero =>
    intro s _ hc
    rw [semAcquireFastIter, semAcquireFast]
    rw [if_neg]
    · rfl
    · intro h
      rw [hc] at h
      exact absurd h.1 (by norm_num)
  | succ k ih =>
    intro s he hc
    have h0 : 0 < s.count := by rw [hc]; positivity
    rw [semAcquireFastIter, semAcquireFast, if_pos ⟨h0, he⟩]
    rw [Option.some_bind]
    exact ih { s with count := s.count - 1 } he (by rw [hc]; push_cast; ring)

/-- Claim C3: starting from a semaphore constructed with count `K > 0`
and no queued waiters, each of the first `K` `Acquire()` calls takes
the fast path of `SemaphoreImpl::Acquire` - it decrements the count by
one and returns without blocking - so exactly `K` acquires succeed
without any `Release()`, and the `(K+1)`-th call does not take the
fast path. -/
theorem semaphore_fast_path_exact_K_C3 (K : Nat) (maxc : Int) (chk : Bool)
    (hK : 0 < K) :
    (∀ i : Nat, i ≤ K →
      semAcquireFastIter i (semInit (K : Int) maxc chk) =
        some { semInit (K : Int) maxc chk with count := (K : Int) - (i : Int) })
    ∧ semAcquireFastIter (K + 1) (semInit (K : Int) maxc chk) = none := by
  constructor
  · intro i hi
    exact semAcquireFastIter_run i (semInit (K : Int) maxc chk) rfl
      (by simp [semInit]; exact_mod_cast hi)
  · exact semAcquireFastIter_exhaust K (semInit (K : Int) maxc chk) rfl rfl

/-- Witness for C3 at `K = 3`: three fast-path acquires succeed and a
fourth does not take the fast path. -/
theorem semaphore_fast_path_exact_K_C3_witness :
    semAcquireFastIter 3 (semInit 3 3 true) =
      some { semInit 3 3 true with count := 0 }
    ∧ semAcquireFastIter 4 (semInit 3 3 true) = none := by
  have h := semaphore_fast_path_exact_K_C3 3 3 true (by decide)
  constructor
  · have h1 := h.1 3 (by decide)
    norm_num at h1
    exact h1
  · exact h.2

/-- Claim C2: `SemaphoreImpl::Release` on a checked semaphore whose
count equals the maximum fails with `InvalidOp_Exception` leaving the
state (count and waiter list) untouched; on any other state it
increments the count by one.  Concretely, `Semaphore(0, 1)` (checked)
after a single `Release()` reaches count 1 = max, and a second
`Release()` fails with INVALID_OP. -/
theorem semaphore_release_invalid_op_C2 :
    (∀ (ora : MonOracle) (fuel : Nat) (s : SemState),
        s.checked = true → s.count = s.maxCount →
        semRelease ora fuel s = some (Except.error (SemError.invalidOp, s)))
    ∧ (∀ (ora : MonOracle) (fuel : Nat) (s : SemState) (r : SemState)
        (evs : List Ev),
        ¬(s.checked = true ∧ s.count = s.maxCount) →
        semRelease ora fuel s = some (Except.ok (r, evs)) →
        r.count = s.count + 1)
    ∧ (∀ (ora : MonOracle) (fuel : Nat),
        semRelease ora (fuel + 1) (semInit 0 1 true) =
          some (Except.ok (semInit 1 1 true, [])))
    ∧ (∀ (ora : MonOracle) (fuel : Nat),
        semRelease ora fuel (semInit 1 1 true) =
          some (Except.error (SemError.invalidOp, semInit 1 1 true))) := by
  refine ⟨?_, ?_, ?_, ?_⟩
  · intro ora fuel s h1 h2
    rw [semRelease, if_pos ⟨h1, h2⟩]
  · intro ora fuel s r evs h hrun
    rw [semRelease, if_neg h] at hrun
    cases hloop : releaseLoop ora fuel 0 s.waiters with
    | none => rw [hloop] at hrun; exact absurd hrun (by simp)
    | some p =>
      rw [hloop] at hrun
      cases p with
      | mk l evs2 =>
        simp only [Option.some.injEq, Except.ok.injEq, Prod.mk.injEq] at hrun
        rw [← hrun.1]
  · intro ora fuel
    rw [semRelease, if_neg (by simp [semInit])]
    rw [show (semInit 0 1 true).waiters = [] from rfl]
    rw [releaseLoop]
    simp [walk, semInit]
  · intro ora fuel
    rw [semRelease, if_pos (by simp [semInit])]

/-- Witness for C2: the guard branch at a concrete checked semaphore
at its maximum, the increment branch at a concrete unchecked state. -/
theorem semaphore_release_invalid_op_C2_witness :
    semRelease (MonOracle.mk (fun _ _ => false) (fun _ _ => false)) 5
        (semInit 2 2 true) =
      some (Except.error (SemError.invalidOp, semInit 2 2 true))
    ∧ semRelease (MonOracle.mk (fun _ _ => false) (fun _ _ => false)) 1
        (semInit 0 1 true) =
      some (Except.ok (semInit 1 1 true, [])) := by
  constructor
  · exact semaphore_release_invalid_op_C2.1
      (MonOracle.mk (fun _ _ => false) (fun _ _ => false)) 5
      (semInit 2 2 true) rfl rfl
  · exact semaphore_release_invalid_op_C2.2.2.1
      (MonOracle.mk (fun _ _ => false) (fun _ _ => false)) 0

theorem erase_self_of_not_mem (l : List Nat) (a : Nat) (h : a ∉ l) :
    (l ++ [a]).erase a = l := by
  rw [List.erase_append_right _ h, List.erase_cons_head, List.append_nil]

/-- Claim C8: when `SemaphoreImpl::TryAcquire`'s fast path is
unavailable and the bounded wait ends in state TIMEDOUT, it returns
false without raising an error, with the count unchanged and the
caller no longer in the waiter list; with timeout 0 no wait is
performed at all (the result does not depend on the wait outcome), so
`TryAcquire(0)` returns immediately: true via the fast path when
`count > 0` and `entry_count == 0`, false otherwise. -/
theorem tryacquire_timedout_C8 :
    (∀ (s : SemState) (self : Nat) (t : Nat),
        ¬(0 < s.count ∧ s.entryCount = 0) → self ∉ s.waiters → t ≠ 0 →
        tryAcquireSem s self t MonState.timedout = Except.ok (false, s))
    ∧ (∀ (s : SemState) (self : Nat) (w : MonState),
        tryAcquireSem s self 0 w = tryAcquireSem s self 0 MonState.timedout)
    ∧ (∀ (s : SemState) (self : Nat) (w : MonState),
        0 < s.count → s.entryCount = 0 →
        tryAcquireSem s self 0 w =
          Except.ok (true, { s with count := s.count - 1 }))
    ∧ (∀ (s : SemState) (self : Nat) (w : MonState),
        ¬(0 < s.count ∧ s.entryCount = 0) → self ∉ s.waiters →
        tryAcquireSem s self 0 w = Except.ok (false, s)) := by
  refine ⟨?_, ?_, ?_, ?_⟩
  · intro s self t hfast hself ht
    rw [tryAcquireSem, if_neg hfast]
    simp only [ht, if_true, ne_eq, not_false_iff]
    rw [erase_self_of_not_mem s.waiters self hself]
  · intro s self w
    rw [tryAcquireSem, tryAcquireSem]
    simp
  · intro s self w hc he
    rw [tryAcquireSem, if_pos ⟨hc, he⟩]
  · intro s self w hfast hself
    rw [tryAcquireSem, if_neg hfast]
    simp only [ne_eq, not_true_eq_false, if_false, reduceIte]
    rw [erase_self_of_not_mem s.waiters self hself]

/-- Witness for C8: a semaphore with count 0 and thread 7 absent from
the waiter list, for a timed-out bounded wait and for timeout 0; and
the zero-timeout fast path at count 2. -/
theorem tryacquire_timedout_C8_witness :
    tryAcquireSem (semInit 0 1 true) 7 10 MonState.timedout =
      Except.ok (false, semInit 0 1 true)
    ∧ tryAcquireSem (semInit 0 1 true) 7 0 MonState.signaled =
      Except.ok (false, semInit 0 1 true)
    ∧ tryAcquireSem (semInit 2 5 false) 7 0 MonState.signaled =
      Except.ok (true, { semInit 2 5 false with count := 1 }) := by
  refine ⟨?_, ?_, ?_⟩
  · exact tryacquire_timedout_C8.1 (semInit 0 1 true) 7 10
      (by simp [semInit]) (by simp [semInit]) (by decide)
  · exact tryacquire_timedout_C8.2.2.2 (semInit 0 1 true) 7 MonState.signaled
      (by simp [semInit]) (by simp [semInit])
  · have h := tryacquire_timedout_C8.2.2.1 (semInit 2 5 false) 7
      MonState.signaled (by simp [semInit]) rfl
    simpa using h

theorem bqEmptyLoop_true (sizes : List Nat) :
    ∀ (s0 : Nat) (b : Bool), bqEmptyLoop s0 sizes = some b → b = true := by
  induction sizes with
  | nil =>
    intro s0 b h
    cases s0 with
    | zero =>
      have h2 : some true = some b := h
      exact (Option.some.inj h2).symm
    | succ k => simp [bqEmptyLoop] at h
  | cons s rest ih =>
    intro s0 b h
    cases s0 with
    | zero =>
      have h2 : some true = some b := h
      exact (Option.some.inj h2).symm
    | succ k => exact ih s b h

theorem bqEmptyLoopTimed_ignores (ws : List (Nat × Bool)) :
    ∀ s0 : Nat, bqEmptyLoopTimed s0 ws = bqEmptyLoop s0 (ws.map Prod.fst) := by
  induction ws with
  | nil => intro s0; cases s0 <;> rfl
  | cons p rest ih =>
    intro s0
    cases s0 with
    | zero => rfl
    | succ k =>
      cases p with
      | mk s b => exact ih s

theorem mqEmptyLoop_true (sizes : List Nat) :
    ∀ (s0 : Nat) (b : Bool), mqEmptyLoop s0 sizes = some b → b = true := by
  induction sizes with
  | nil =>
    intro s0 b h
    cases s0 with
    | zero =>
      have h2 : some true = some b := h
      exact (Option.some.inj h2).symm
    | succ k => simp [mqEmptyLoop] at h
  | cons s rest ih =>
    intro s0 b h
    cases s0 with
    | zero =>
      have h2 : some true = some b := h
      exact (Option.some.inj h2).symm
    | succ k => exact ih s b h

theorem mqEmptyLoopTimed_ignores (ws : List (Nat × Bool)) :
    ∀ s0 : Nat, mqEmptyLoopTimed s0 ws = mqEmptyLoop s0 (ws.map Prod.fst) := by
  induction ws with
  | nil => intro s0; cases s0 <;> rfl
  | cons p rest ih =>
    intro s0
    cases s0 with
    | zero => rfl
    | succ k =>
      cases p with
      | mk s b => exact ih s

/-- Claim C10: `BoundedQueue::Empty`/`Empty(timeout)` and
`MonitoredQueue::empty`/`empty(timeout)` can only ever return true:
each loops until the internal size is zero and then returns true
unconditionally, and the timed variant's loop discards the boolean
result of each timed `Wait` (its result equals the untimed loop's on
the same size observations). -/
theorem queue_empty_always_true_C10 :
    (∀ (s0 : Nat) (sizes : List Nat) (b : Bool),
        bqEmptyLoop s0 sizes = some b → b = true)
    ∧ (∀ (s0 : Nat) (ws : List (Nat × Bool)),
        bqEmptyLoopTimed s0 ws = bqEmptyLoop s0 (ws.map Prod.fst))
    ∧ (∀ (s0 : Nat) (sizes : List Nat) (b : Bool),
        mqEmptyLoop s0 sizes = some b → b = true)
    ∧ (∀ (s0 : Nat) (ws : List (Nat × Bool)),
        mqEmptyLoopTimed s0 ws = mqEmptyLoop s0 (ws.map Prod.fst)) :=
  ⟨fun s0 sizes b h => bqEmptyLoop_true sizes s0 b h,
   fun s0 ws => bqEmptyLoopTimed_ignores ws s0,
   fun s0 sizes b h => mqEmptyLoop_true sizes s0 b h,
   fun s0 ws => mqEmptyLoopTimed_ignores ws s0⟩

/-- Witness for C10: a concrete run whose size observations are
`3, 1, 0`, returning true, identical for the timed loop whatever the
discarded Wait results are. -/
theorem queue_empty_always_true_C10_witness :
    bqEmptyLoop 3 [1, 0] = some true
    ∧ bqEmptyLoopTimed 3 [(1, false), (0, true)] = bqEmptyLoop 3 [1, 0]
    ∧ mqEmptyLoop 3 [1, 0] = some true
    ∧ mqEmptyLoopTimed 3 [(1, false), (0, true)] = mqEmptyLoop 3 [1, 0] := by
  refine ⟨?_, queue_empty_always_true_C10.2.1 3 [(1, false), (0, true)],
    ?_, queue_empty_always_true_C10.2.2.2 3 [(1, false), (0, true)]⟩
  · have hb : bqEmptyLoop 3 [1, 0] = some true := rfl
    have hq := queue_empty_always_true_C10.1 3 [1, 0] true hb
    exact hb
  · have hb : mqEmptyLoop 3 [1, 0] = some true := rfl
    have hq := queue_empty_always_true_C10.2.2.1 3 [1, 0] true hb
    exact hb

/-- Claim C5 (code bug): `BoundedQueue::Cancel` sets the canceled flag
but broadcasts only `not_empty_` - neither `not_full_` nor `is_empty_`
is signalled - while `Add` blocked on a full queue waits on
`not_full_`.  A producer blocked in `Add` is therefore never awoken by
`Cancel`, contradicting the claim (and the code's own postcondition
that threads blocked in `add()` throw a `Cancellation_Exception`). -/
theorem bounded_cancel_broadcast_C5 :
    (∀ q : BQueue, bqCancel q = ({ q with canceled := true }, [CondId.notEmpty]))
    ∧ (∀ q : BQueue,
        CondId.notFull ∉ (bqCancel q).2 ∧ CondId.isEmpty ∉ (bqCancel q).2)
    ∧ bqAdd { capacity := 1, items := [5], canceled := false } 6 =
        OpRes.waits CondId.notFull := by
  refine ⟨?_, ?_, ?_⟩
  · intro q; rfl
  · intro q; simp [bqCancel]
  · decide

/-- Counterexample to C4 as stated: on the canceled `BoundedQueue`
with capacity 2 still holding item 5, `Next()` does not raise CANCELED
- it removes and returns the item. -/
theorem queue_canceled_next_counterexample_C4 :
    bqNext { capacity := 2, items := [5], canceled := true } =
      OpRes.ok 5 { capacity := 2, items := [], canceled := true }
        [CondId.notFull] [CondId.isEmpty]
    ∧ bqNext { capacity := 2, items := [5], canceled := true } ≠
        OpRes.err QErr.canceledErr := by
  constructor
  · decide
  · decide

/-- Claim C4 as amended: for every queue in the family, once canceled,
every subsequent `Add` (timed or untimed) raises CANCELED; a
subsequent `Next` (timed or untimed) raises CANCELED when the backing
sequence is empty, and otherwise still removes and returns the head
item - shown for every Next variant of all three queues. -/
theorem queue_canceled_ops_C4 :
    (∀ (q : BQueue) (x : Nat), q.canceled = true →
        bqAdd q x = OpRes.err QErr.canceledErr
        ∧ bqAddTimed q x = OpRes.err QErr.canceledErr)
    ∧ (∀ q : BQueue, q.canceled = true → q.items = [] →
        bqNext q = OpRes.err QErr.canceledErr
        ∧ bqNextTimed q = OpRes.err QErr.canceledErr)
    ∧ (∀ (q : BQueue) (x : Nat) (rest : List Nat),
        q.canceled = true → q.items = x :: rest →
        bqNext q = OpRes.ok x { q with items := rest } [CondId.notFull]
            (if rest.length = 0 then [CondId.isEmpty] else [])
        ∧ bqNextTimed q = OpRes.ok x { q with items := rest } [CondId.notFull]
            (if rest.length = 0 then [CondId.isEmpty] else []))
    ∧ (∀ (q : UQueue) (x : Nat), q.canceled = true →
        blqAdd q x = OpRes.err QErr.canceledErr
        ∧ blqAddTimed q x = OpRes.err QErr.canceledErr
        ∧ mqAdd q x = OpRes.err QErr.canceledErr
        ∧ mqAddTimed q x = OpRes.err QErr.canceledErr)
    ∧ (∀ q : UQueue, q.canceled = true → q.items = [] →
        blqNext q = OpRes.err QErr.canceledErr
        ∧ blqNextTimed q = OpRes.err QErr.canceledErr
        ∧ mqNext q = OpRes.err QErr.canceledErr
        ∧ mqNextTimed q = OpRes.err QErr.canceledErr)
    ∧ (∀ (q : UQueue) (x : Nat) (rest : List Nat),
        q.canceled = true → q.items = x :: rest →
        blqNext q = OpRes.ok x { q with items := rest } [] []
        ∧ blqNextTimed q = OpRes.ok x { q with items := rest } [] []
        ∧ mqNext q = OpRes.ok x { q with items := rest } []
            (if rest.length = 0 then [CondId.isEmpty] else [])
        ∧ mqNextTimed q = OpRes.ok x { q with items := rest } []
            (if rest.length = 0 then [CondId.isEmpty] else [])) := by
  refine ⟨?_, ?_, ?_, ?_, ?_, ?_⟩
  · intro q x hc
    constructor <;>
      · simp [bqAdd, bqAddTimed, hc]
  · intro q hc hi
    constructor <;>
      · simp [bqNext, bqNextTimed, hi, hc]
  · intro q x rest hc hi
    constructor <;>
      · simp [bqNext, bqNextTimed, hi]
  · intro q x hc
    refine ⟨?_, ?_, ?_, ?_⟩ <;>
      · simp [blqAdd, blqAddTimed, mqAdd, mqAddTimed, hc]
  · intro q hc hi
    refine ⟨?_, ?_, ?_, ?_⟩ <;>
      · simp [blqNext, blqNextTimed, mqNext, mqNextTimed, hi, hc]
  · intro q x rest hc hi
    refine ⟨?_, ?_, ?_, ?_⟩ <;>
      · simp [blqNext, blqNextTimed, mqNext, mqNextTimed, hi]

/-- Witness for the amended C4 on concrete canceled queues, covering
an Add, an empty-queue Next, and non-empty timed and untimed Nexts of
the bounded and the unbounded queues. -/
theorem queue_canceled_ops_C4_witness :
    bqAdd { capacity := 2, items := [], canceled := true } 9 =
      OpRes.err QErr.canceledErr
    ∧ bqNext { capacity := 2, items := [], canceled := true } =
      OpRes.err QErr.canceledErr
    ∧ bqNext { capacity := 2, items := [7], canceled := true } =
      OpRes.ok 7 { capacity := 2, items := [], canceled := true }
        [CondId.notFull] [CondId.isEmpty]
    ∧ bqNextTimed { capacity := 2, items := [7], canceled := true } =
      OpRes.ok 7 { capacity := 2, items := [], canceled := true }
        [CondId.notFull] [CondId.isEmpty]
    ∧ blqNext { items := [], canceled := true } = OpRes.err QErr.canceledErr
    ∧ blqNext { items := [7, 8], canceled := true } =
      OpRes.ok 7 { items := [8], canceled := true } [] []
    ∧ blqNextTimed { items := [7, 8], canceled := true } =
      OpRes.ok 7 { items := [8], canceled := true } [] []
    ∧ mqNext { items := [7, 8], canceled := true } =
      OpRes.ok 7 { items := [8], canceled := true } [] []
    ∧ mqNextTimed { items := [7, 8], canceled := true } =
      OpRes.ok 7 { items := [8], canceled := true } [] [] := by
  have hb := queue_canceled_ops_C4.2.2.1
    { capacity := 2, items := [7], canceled := true } 7 [] rfl rfl
  have hu := queue_canceled_ops_C4.2.2.2.2.2
    { items := [7, 8], canceled := true } 7 [8] rfl rfl
  refine ⟨?_, ?_, ?_, ?_, ?_, ?_, ?_, ?_, ?_⟩
  · exact (queue_canceled_ops_C4.1 { capacity := 2, items := [], canceled := true }
      9 rfl).1
  · exact (queue_canceled_ops_C4.2.1 { capacity := 2, items := [], canceled := true }
      rfl rfl).1
  · simpa using hb.1
  · simpa using hb.2
  · exact (queue_canceled_ops_C4.2.2.2.2.1 { items := [], canceled := true }
      rfl rfl).1
  · simpa using hu.1
  · simpa using hu.2.1
  · simpa using hu.2.2.1
  · simpa using hu.2.2.2

theorem bqAddAll_run (xs : List Nat) :
    ∀ (cap : Nat) (l : List Nat), l.length + xs.length ≤ cap →
    bqAddAll { capacity := cap, items := l, canceled := false } xs =
      some { capacity := cap, items := l ++ xs, canceled := false } := by
  induction xs with
  | nil => intro cap l _; simp [bqAddAll]
  | cons x xs ih =>
    intro cap l h
    have hlt : l.length ≠ cap := by
      simp only [List.length_cons] at h
      omega
    have h2 : (l ++ [x]).length + xs.length ≤ cap := by
      simp only [List.length_append, List.length_cons, List.length_nil] at h ⊢
      omega
    have hstep :
        bqAddAll { capacity := cap, items := l, canceled := false } (x :: xs) =
          bqAddAll { capacity := cap, items := l ++ [x], canceled := false } xs := by
      rw [bqAddAll, bqAdd]
      rw [if_neg (fun hc => hlt hc.1)]
      rw [if_neg (by simp)]
    rw [hstep, ih cap (l ++ [x]) h2]
    simp

theorem bqDrain_run (xs : List Nat) :
    ∀ cap : Nat,
    bqDrain { capacity := cap, items := xs, canceled := false } xs.length =
      some (xs, { capacity := cap, items := [], canceled := false }) := by
  induction xs with
  | nil => intro cap; simp [bqDrain]
  | cons x xs ih =>
    intro cap
    have hstep :
        bqDrain { capacity := cap, items := x :: xs, canceled := false }
            (xs.length + 1) =
          (bqDrain { capacity := cap, items := xs, canceled := false }
              xs.length).map (fun p => (x :: p.1, p.2)) := rfl
    rw [List.length_cons, hstep, ih cap]
    rfl

theorem blqAddAll_run (xs : List Nat) :
    ∀ l : List Nat,
    blqAddAll { items := l, canceled := false } xs =
      some { items := l ++ xs, canceled := false } := by
  induction xs with
  | nil => intro l; simp [blqAddAll]
  | cons x xs ih =>
    intro l
    have hstep :
        blqAddAll { items := l, canceled := false } (x :: xs) =
          blqAddAll { items := l ++ [x], canceled := false } xs := rfl
    rw [hstep, ih (l ++ [x])]
    simp

theorem blqDrain_run (xs : List Nat) :
    blqDrain { items := xs, canceled := false } xs.length =
      some (xs, { items := [], canceled := false }) := by
  induction xs with
  | nil => simp [blqDrain]
  | cons x xs ih =>
    have hstep :
        blqDrain { items := x :: xs, canceled := false } (xs.length + 1) =
          (blqDrain { items := xs, canceled := false } xs.length).map
            (fun p => (x :: p.1, p.2)) := rfl
    rw [List.length_cons, hstep, ih]
    rfl

theorem mqAddAll_run (xs : List Nat) :
    ∀ l : List Nat,
    mqAddAll { items := l, canceled := false } xs =
      some { items := l ++ xs, canceled := false } := by
  induction xs with
  | nil => intro l; simp [mqAddAll]
  | cons x xs ih =>
    intro l
    have hstep :
        mqAddAll { items := l, canceled := false } (x :: xs) =
          mqAddAll { items := l ++ [x], canceled := false } xs := rfl
    rw [hstep, ih (l ++ [x])]
    simp

theorem mqDrain_run (xs : List Nat) :
    mqDrain { items := xs, canceled := false } xs.length =
      some (xs, { items := [], canceled := false }) := by
  induction xs with
  | nil => simp [mqDrain]
  | cons x xs ih =>
    have hstep :
        mqDrain { items := x :: xs, canceled := false } (xs.length + 1) =
          (mqDrain { items := xs, canceled := false } xs.length).map
            (fun p => (x :: p.1, p.2)) := rfl
    rw [List.length_cons, hstep, ih]
    rfl

/-- Claim C6: every queue of the family is FIFO with respect to
insertion: `Add` appends the item at the tail of the backing deque,
`Next` removes and returns the head, and for any sequence of adds the
successive `Next` calls return the items in exactly their insertion
order (shown for `BoundedQueue`, `BlockingQueue` and
`MonitoredQueue`). -/
theorem queue_fifo_order_C6 :
    (∀ (q : BQueue) (x : Nat), q.canceled = false →
        q.items.length < q.capacity →
        bqAdd q x = OpRes.ok () { q with items := q.items ++ [x] }
          [CondId.notEmpty] [])
    ∧ (∀ (q : BQueue) (x : Nat) (rest : List Nat), q.items = x :: rest →
        bqNext q = OpRes.ok x { q with items := rest } [CondId.notFull]
          (if rest.length = 0 then [CondId.isEmpty] else []))
    ∧ (∀ (xs : List Nat) (cap : Nat), xs.length ≤ cap →
        (bqAddAll (bqInit cap) xs).bind (fun q => bqDrain q xs.length) =
          some (xs, { capacity := cap, items := [], canceled := false }))
    ∧ (∀ xs : List Nat,
        (blqAddAll { items := [], canceled := false } xs).bind
            (fun q => blqDrain q xs.length) =
          some (xs, { items := [], canceled := false }))
    ∧ (∀ xs : List Nat,
        (mqAddAll { items := [], canceled := false } xs).bind
            (fun q => mqDrain q xs.length) =
          some (xs, { items := [], canceled := false })) := by
  refine ⟨?_, ?_, ?_, ?_, ?_⟩
  · intro q x hc hlen
    rw [bqAdd]
    rw [if_neg (fun hcon => absurd hcon.1 (by omega))]
    rw [if_neg (by simp [hc])]
  · intro q x rest hi
    rw [bqNext]
    cases hq : q.items with
    | nil => rw [hq] at hi; exact absurd hi (by simp)
    | cons y ys =>
      rw [hq] at hi
      cases hi
      rfl
  · intro xs cap h
    have ha := bqAddAll_run xs cap [] (by simpa using h)
    rw [show bqInit cap = { capacity := cap, items := [], canceled := false } from rfl]
    rw [ha, Option.some_bind]
    simpa using bqDrain_run xs cap
  · intro xs
    rw [blqAddAll_run xs [], Option.some_bind]
    simpa using blqDrain_run xs
  · intro xs
    rw [mqAddAll_run xs [], Option.some_bind]
    simpa using mqDrain_run xs

/-- Witness for C6: adding 1, 2, 3 to each freshly constructed queue
and draining yields 1, 2, 3 in insertion order. -/
theorem queue_fifo_order_C6_witness :
    (bqAddAll (bqInit 3) [1, 2, 3]).bind (fun q => bqDrain q 3) =
      some ([1, 2, 3], { capacity := 3, items := [], canceled := false })
    ∧ (blqAddAll { items := [], canceled := false } [1, 2, 3]).bind
        (fun q => blqDrain q 3) =
      some ([1, 2, 3], { items := [], canceled := false })
    ∧ (mqAddAll { items := [], canceled := false } [1, 2, 3]).bind
        (fun q => mqDrain q 3) =
      some ([1, 2, 3], { items := [], canceled := false })
    ∧ bqAdd (bqInit 3) 1 = OpRes.ok () { bqInit 3 with items := [1] }
        [CondId.notEmpty] [] := by
  refine ⟨?_, ?_, ?_, ?_⟩
  · exact queue_fifo_order_C6.2.2.1 [1, 2, 3] 3 (by decide)
  · exact queue_fifo_order_C6.2.2.2.1 [1, 2, 3]
  · exact queue_fifo_order_C6.2.2.2.2 [1, 2, 3]
  · have h := queue_fifo_order_C6.1 (bqInit 3) 1 rfl (by decide)
    simpa using h

theorem rwReach_invariant (s : RWState) (h : RWReach s) :
    0 ≤ s.activeWriters ∧ s.activeWriters ≤ 1 ∧
      (s.activeWriters = 1 → s.activeReaders = 0) := by
  induction h with
  | init => refine ⟨le_refl 0, ?_, ?_⟩ <;> simp [rwInit]
  | step t u _ hstep ih =>
    obtain ⟨aw, ar, wr, ww⟩ := t
    cases hstep with
    | startRead => exact ih
    | grantRead hg hw =>
      simp only [AllowReader, beq_iff_eq] at hg
      dsimp only at ih hg ⊢
      omega
    | abortRead hw => exact ih
    | finishRead ha =>
      simp only [AfterRead]
      dsimp only at ih ha ⊢
      omega
    | startWrite => exact ih
    | grantWrite hg hw =>
      simp only [AllowWriter, Bool.and_eq_true, beq_iff_eq] at hg
      dsimp only at ih hg ⊢
      omega
    | abortWrite hw => exact ih
    | finishWrite ha =>
      simp only [AfterWrite]
      dsimp only at ih ha ⊢
      omega

/-- Claim C7: in `BiasedReadWriteLock`, every state reachable through
`BeforeRead`/`AfterRead`/`BeforeWrite`/`AfterWrite` satisfies
`active_writers ∈ {0,1}` and, whenever `active_writers = 1`,
`active_readers = 0`; a reader is admitted only when
`active_writers == 0` (`AllowReader`) and a writer only when
`active_writers == 0 && active_readers == 0` (`AllowWriter`); and
release signals a waiting writer in preference to waiting readers. -/
theorem biased_rwlock_invariant_C7 :
    (∀ s : RWState, RWReach s →
        (s.activeWriters = 0 ∨ s.activeWriters = 1) ∧
          (s.activeWriters = 1 → s.activeReaders = 0))
    ∧ (∀ s : RWState, AllowReader s = true ↔ s.activeWriters = 0)
    ∧ (∀ s : RWState, AllowWriter s = true ↔
        s.activeWriters = 0 ∧ s.activeReaders = 0)
    ∧ (∀ s t : RWState, RWStep s t →
        t.activeReaders = s.activeReaders + 1 → AllowReader s = true)
    ∧ (∀ s t : RWState, RWStep s t →
        t.activeWriters = s.activeWriters + 1 → AllowWriter s = true)
    ∧ (∀ s : RWState, 0 < s.waitingWriters →
        (AfterRead s).2 = some RWCond.condWrite
        ∧ (AfterWrite s).2 = some RWCond.condWrite)
    ∧ (∀ s : RWState, s.waitingWriters ≤ 0 → 0 < s.waitingReaders →
        (AfterRead s).2 = some RWCond.condRead
        ∧ (AfterWrite s).2 = some RWCond.condRead) := by
  refine ⟨?_, ?_, ?_, ?_, ?_, ?_, ?_⟩
  · intro s h
    have hi := rwReach_invariant s h
    exact ⟨by omega, hi.2.2⟩
  · intro s
    simp [AllowReader]
  · intro s
    simp [AllowWriter]
  · intro s t hstep heq
    obtain ⟨aw, ar, wr, ww⟩ := s
    cases hstep with
    | startRead => dsimp only at heq; omega
    | grantRead hg hw => exact hg
    | abortRead hw => dsimp only at heq; omega
    | finishRead ha =>
      simp only [AfterRead] at heq
      omega
    | startWrite => dsimp only at heq; omega
    | grantWrite hg hw => dsimp only at heq; omega
    | abortWrite hw => dsimp only at heq; omega
    | finishWrite ha =>
      simp only [AfterWrite] at heq
      omega
  · intro s t hstep heq
    obtain ⟨aw, ar, wr, ww⟩ := s
    cases hstep with
    | startRead => dsimp only at heq; omega
    | grantRead hg hw => dsimp only at heq; omega
    | abortRead hw => dsimp only at heq; omega
    | finishRead ha =>
      simp only [AfterRead] at heq
      omega
    | startWrite => dsimp only at heq; omega
    | grantWrite hg hw => exact hg
    | abortWrite hw => dsimp only at heq; omega
    | finishWrite ha =>
      simp only [AfterWrite] at heq
      omega
  · intro s hw
    constructor <;> simp [AfterRead, AfterWrite, releaseSignal, hw]
  · intro s hw hr
    constructor <;>
      simp [AfterRead, AfterWrite, releaseSignal, hr, not_lt.mpr hw]

/-- Witness for C7: the freshly constructed lock is reachable and
satisfies the invariant; with one waiting writer and one waiting
reader the release signal prefers the writer condition. -/
theorem biased_rwlock_invariant_C7_witness :
    ((rwInit.activeWriters = 0 ∨ rwInit.activeWriters = 1) ∧
        (rwInit.activeWriters = 1 → rwInit.activeReaders = 0))
    ∧ (AfterRead (RWState.mk 0 1 1 1)).2 = some RWCond.condWrite
    ∧ (AfterWrite (RWState.mk 1 0 2 0)).2 = some RWCond.condRead := by
  refine ⟨?_, ?_, ?_⟩
  · exact biased_rwlock_invariant_C7.1 rwInit RWReach.init
  · exact (biased_rwlock_invariant_C7.2.2.2.2.2.1 (RWState.mk 0 1 1 1)
      (by decide)).1
  · exact (biased_rwlock_invariant_C7.2.2.2.2.2.2 (RWState.mk 1 0 2 0)
      (by decide) (by decide)).2

/-- Counterexample to C9 as stated: with two concrete token policies,
`CompoundScope::DestroyScope` applies `Scope1::DestroyScope` first and
`Scope2::DestroyScope` second - the same order as on entry - so the
exit trace is `[11, 22]`, not the reverse order `[22, 11]` the claim
describes. -/
theorem compound_scope_exit_order_counterexample_C9 :
    compoundDestroy (tokenPolicy 1 11 true) (tokenPolicy 2 22 true) [] = [11, 22]
    ∧ compoundDestroySpecOrder (tokenPolicy 1 11 true) (tokenPolicy 2 22 true) []
        = [22, 11]
    ∧ compoundDestroy (tokenPolicy 1 11 true) (tokenPolicy 2 22 true) [] ≠
        compoundDestroySpecOrder (tokenPolicy 1 11 true) (tokenPolicy 2 22 true)
          [] := by
  refine ⟨rfl, rfl, ?_⟩
  intro h
  simpa [compoundDestroy, compoundDestroySpecOrder, tokenPolicy] using h

/-- Claim C9 as amended: `CompoundScope<Scope1, Scope2>` applies the
two policies in sequence on entry (`Scope1` then `Scope2`) and in the
same order on exit (`Scope1::DestroyScope` then `Scope2::DestroyScope`,
not the reverse); for the timed entry, if `Scope1::CreateScope`
succeeds and `Scope2::CreateScope` fails, `Scope1` is undone via its
`DestroyScope` and the compound `CreateScope` returns false. -/
theorem compound_scope_order_C9 :
    (∀ (c1 d1 c2 d2 : Nat) (ok1 ok2 : Bool) (tr : List Nat),
        compoundCreate (tokenPolicy c1 d1 ok1) (tokenPolicy c2 d2 ok2) tr =
          tr ++ [c1, c2])
    ∧ (∀ (c1 d1 c2 d2 : Nat) (ok1 ok2 : Bool) (tr : List Nat),
        compoundDestroy (tokenPolicy c1 d1 ok1) (tokenPolicy c2 d2 ok2) tr =
          tr ++ [d1, d2])
    ∧ (∀ (c1 d1 c2 d2 : Nat) (tr : List Nat),
        compoundCreateT (tokenPolicy c1 d1 true) (tokenPolicy c2 d2 false) tr =
          (false, tr ++ [c1, c2, d1]))
    ∧ (∀ (c1 d1 c2 d2 : Nat) (tr : List Nat),
        compoundCreateT (tokenPolicy c1 d1 true) (tokenPolicy c2 d2 true) tr =
          (true, tr ++ [c1, c2])) := by
  refine ⟨?_, ?_, ?_, ?_⟩
  · intro c1 d1 c2 d2 ok1 ok2 tr
    simp [compoundCreate, tokenPolicy]
  · intro c1 d1 c2 d2 ok1 ok2 tr
    simp [compoundDestroy, tokenPolicy]
  · intro c1 d1 c2 d2 tr
    simp [compoundCreateT, tokenPolicy]
  · intro c1 d1 c2 d2 tr
    simp [compoundCreateT, tokenPolicy]

theorem walk_no_donation (tA nO : Nat → Bool) :
    ∀ ws : List Nat, (∀ w ∈ ws, tA w = true → nO w = false) →
    walk tA nO ws = (ws.filter (fun w => !tA w), false, walkTraceNoWake tA ws) := by
  intro ws
  induction ws with
  | nil => intro _; rfl
  | cons w rest ih =>
    intro h
    have hrest : ∀ x ∈ rest, tA x = true → nO x = false :=
      fun x hx => h x (List.mem_cons_of_mem w hx)
    rw [walk]
    by_cases htA : tA w = true
    · have hnO : nO w = false := h w (List.mem_cons_self w rest) htA
      rw [if_pos htA, if_neg (by rw [hnO]; exact Bool.false_ne_true)]
      rw [ih hrest]
      simp [walkTraceNoWake, List.filter_cons, htA]
    · rw [if_neg htA]
      rw [ih hrest]
      have htA2 : tA w = false := Bool.not_eq_true _ |>.mp htA
      simp [walkTraceNoWake, List.filter_cons, htA2]

theorem walk_first_donor (tA nO : Nat → Bool) (w0 : Nat) (ws2 : List Nat)
    (hA : tA w0 = true) (hN : nO w0 = true) :
    ∀ ws1 : List Nat, (∀ w ∈ ws1, tA w = true → nO w = false) →
    walk tA nO (ws1 ++ w0 :: ws2) =
      (ws1.filter (fun w => !tA w) ++ ws2, true,
       walkTraceNoWake tA ws1 ++
         [Ev.removed w0, Ev.notified w0 true, Ev.monReleased w0]) := by
  intro ws1
  induction ws1 with
  | nil =>
    intro _
    rw [List.nil_append, walk, if_pos hA, if_pos hN]
    simp [walkTraceNoWake]
  | cons w rest ih =>
    intro h
    have hrest : ∀ x ∈ rest, tA x = true → nO x = false :=
      fun x hx => h x (List.mem_cons_of_mem w hx)
    rw [List.cons_append, walk]
    by_cases htA : tA w = true
    · have hnO : nO w = false := h w (List.mem_cons_self w rest) htA
      rw [if_pos htA, if_neg (by rw [hnO]; exact Bool.false_ne_true)]
      rw [ih hrest]
      simp [walkTraceNoWake, List.filter_cons, htA]
    · rw [if_neg htA]
      rw [ih hrest]
      have htA2 : tA w = false := Bool.not_eq_true _ |>.mp htA
      simp [walkTraceNoWake, List.filter_cons, htA2]

theorem releaseLoop_return_on_wake (ora : MonOracle) (fuel round : Nat)
    (ws l : List Nat) (evs : List Ev)
    (h : walk (ora.tryAcq round) (ora.notifyOk round) ws = (l, true, evs)) :
    releaseLoop ora (fuel + 1) round ws = some (l, evs) := by
  rw [releaseLoop, h]
  simp

theorem releaseLoop_return_on_empty (ora : MonOracle) (fuel round : Nat)
    (ws : List Nat) (evs : List Ev)
    (h : walk (ora.tryAcq round) (ora.notifyOk round) ws = ([], false, evs)) :
    releaseLoop ora (fuel + 1) round ws = some ([], evs) := by
  rw [releaseLoop, h]
  simp

theorem releaseLoop_retry (ora : MonOracle) (fuel round : Nat)
    (ws l : List Nat) (evs : List Ev)
    (h : walk (ora.tryAcq round) (ora.notifyOk round) ws = (l, false, evs))
    (hne : l ≠ []) :
    releaseLoop ora (fuel + 1) round ws =
      (releaseLoop ora fuel (round + 1) l).map
        (fun p => (p.1, evs ++ Ev.yielded :: p.2)) := by
  rw [releaseLoop, h]
  simp only [if_neg (by simp [List.isEmpty_iff, hne] : ¬(l.isEmpty = true))]
  simp only [Bool.false_eq_true, if_false]
  cases hrec : releaseLoop ora fuel (round + 1) l with
  | none => rfl
  | some p => cases p with | mk a b => rfl

/-- Claim C1: the notify-donor protocol of `SemaphoreImpl::Release`.
A walk visits the waiter list head to tail: a candidate whose
`Monitor::TryAcquire()` fails is skipped and kept in place (when no
donation happens the remaining list is exactly the TryAcquire-failed
candidates in order), while a candidate whose TryAcquire succeeds is
removed from the list and then `notify()` and `Monitor::Release()` run
in that order (visible in the event trace); the walk - and `Release` -
stops at the first candidate whose notify returns true, leaving the
rest of the list untouched.  The outer loop returns as soon as a walk
wakes someone, returns when the remaining waiter list is empty, and
otherwise releases the semaphore's internal lock, yields (the
`yielded` event) and re-walks the remaining list. -/
theorem notify_donor_protocol_C1 :
    (∀ (tA nO : Nat → Bool) (ws : List Nat),
        (∀ w ∈ ws, tA w = true → nO w = false) →
        walk tA nO ws =
          (ws.filter (fun w => !tA w), false, walkTraceNoWake tA ws))
    ∧ (∀ (tA nO : Nat → Bool) (ws1 : List Nat) (w0 : Nat) (ws2 : List Nat),
        (∀ w ∈ ws1, tA w = true → nO w = false) →
        tA w0 = true → nO w0 = true →
        walk tA nO (ws1 ++ w0 :: ws2) =
          (ws1.filter (fun w => !tA w) ++ ws2, true,
           walkTraceNoWake tA ws1 ++
             [Ev.removed w0, Ev.notified w0 true, Ev.monReleased w0]))
    ∧ (∀ (ora : MonOracle) (fuel round : Nat) (ws l : List Nat) (evs : List Ev),
        walk (ora.tryAcq round) (ora.notifyOk round) ws = (l, true, evs) →
        releaseLoop ora (fuel + 1) round ws = some (l, evs))
    ∧ (∀ (ora : MonOracle) (fuel round : Nat) (ws : List Nat) (evs : List Ev),
        walk (ora.tryAcq round) (ora.notifyOk round) ws = ([], false, evs) →
        releaseLoop ora (fuel + 1) round ws = some ([], evs))
    ∧ (∀ (ora : MonOracle) (fuel round : Nat) (ws l : List Nat) (evs : List Ev),
        walk (ora.tryAcq round) (ora.notifyOk round) ws = (l, false, evs) →
        l ≠ [] →
        releaseLoop ora (fuel + 1) round ws =
          (releaseLoop ora fuel (round + 1) l).map
            (fun p => (p.1, evs ++ Ev.yielded :: p.2))) :=
  ⟨fun tA nO ws h => walk_no_donation tA nO ws h,
   fun tA nO ws1 w0 ws2 h hA hN => walk_first_donor tA nO w0 ws2 hA hN ws1 h,
   fun ora fuel round ws l evs h =>
     releaseLoop_return_on_wake ora fuel round ws l evs h,
   fun ora fuel round ws evs h =>
     releaseLoop_return_on_empty ora fuel round ws evs h,
   fun ora fuel round ws l evs h hne =>
     releaseLoop_retry ora fuel round ws l evs h hne⟩

/-- Witness for C1 on the concrete waiter list `[1, 2, 3, 4]` where
waiter 1's monitor cannot be acquired, waiter 2's notify fails
(sticky), and waiter 3's notify succeeds: 1 is kept, 2 and 3 are
removed with the remove/notify/release event order, 4 is never
examined, and the loop returns that walk's result at once. -/
theorem notify_donor_protocol_C1_witness :
    walk (fun w => decide (w ≠ 1)) (fun w => decide (w = 3)) [1, 2, 3, 4] =
      ([1, 4], true,
       [Ev.tryFail 1, Ev.removed 2, Ev.notified 2 false, Ev.monReleased 2,
        Ev.removed 3, Ev.notified 3 true, Ev.monReleased 3])
    ∧ releaseLoop
        (MonOracle.mk (fun _ w => decide (w ≠ 1)) (fun _ w => decide (w = 3)))
        1 0 [1, 2, 3, 4] =
      some ([1, 4],
       [Ev.tryFail 1, Ev.removed 2, Ev.notified 2 false, Ev.monReleased 2,
        Ev.removed 3, Ev.notified 3 true, Ev.monReleased 3]) := by
  constructor
  · have h := notify_donor_protocol_C1.2.1 (fun w => decide (w ≠ 1))
      (fun w => decide (w = 3)) [1, 2] 3 [4] (by decide) (by decide) (by decide)
    simpa [walkTraceNoWake] using h
  · exact notify_donor_protocol_C1.2.2.1
      (MonOracle.mk (fun _ w => decide (w ≠ 1)) (fun _ w => decide (w = 3)))
      0 0 [1, 2, 3, 4] [1, 4]
      [Ev.tryFail 1, Ev.removed 2, Ev.notified 2 false, Ev.monReleased 2,
       Ev.removed 3, Ev.notified 3 true, Ev.monReleased 3] (by decide)

end ZThread
